import Mathlib

/-!
Shallow embedding of the anylist-cli repository (src/types.ts, src/config.ts)
and proofs about the claims of its specification.

The data model mirrors the TypeScript interfaces; the client wrapper
functions (findItemByName, getListByName, addItem, checkItem, uncheckItem,
removeItem, clearChecked) are translated from src/types.ts.  Mutation of the
item objects held inside a list is made explicit: each helper returns the
updated list next to the value the TypeScript function returns.  Calls into
the wrapped anylist library (getItemByName, getListByName on the client,
createItem, list.addItem, list.removeItem) are modelled as the exact-name
lookups / list edits the library performs on the already-fetched in-memory
data.  The JSON builtins used by config.ts are modelled at the JSON-value
level.  Exit behaviour of the CLI commands is modelled by a pure function per
command over a world that fixes the environment, the config file, the account
data and whether each awaited library call throws.
-/

namespace AnylistCli

/-- Model of the JavaScript String.prototype.toLowerCase for the ASCII range
(the only range the specification speaks about). -/
def toLowerCase (s : String) : String :=
  String.mk (s.data.map Char.toLower)

/-- Truthiness of an optional string argument in JavaScript: undefined and
the empty string are falsy. -/
def strTruthy : Option String → Bool
  | none => false
  | some s => !(s == "")

/-- Model of the JavaScript expression s or-else "other" used when building
ItemInfo values from an item field. -/
def orOther (s : String) : String :=
  if s == "" then "other" else s

/-- Item of a list, mirroring the AnyListItem interface of src/types.ts
(name, quantity, checked, identifier, categoryMatchId) together with the
details field the code reads and writes on the library objects. -/
structure AnyListItem where
  name : String
  quantity : String
  checked : Bool
  identifier : String
  categoryMatchId : String
  details : String
  deriving Repr, DecidableEq

/-- List of items, mirroring the AnyListList interface of src/types.ts. -/
structure AnyListList where
  name : String
  identifier : String
  items : List AnyListItem
  deriving Repr, DecidableEq

/-- Serializable item info for JSON output, mirroring ItemInfo of
src/types.ts (including the details field the code puts in it). -/
structure ItemInfo where
  name : String
  quantity : String
  details : String
  checked : Bool
  identifier : String
  categoryMatchId : String
  deriving Repr, DecidableEq

/-- The ItemInfo object the wrapper functions build from an item:
quantity or-else the empty string, details or-else the empty string,
categoryMatchId or-else the string other. -/
def itemInfo (i : AnyListItem) : ItemInfo :=
  { name := i.name
    quantity := i.quantity
    details := i.details
    checked := i.checked
    identifier := i.identifier
    categoryMatchId := orOther i.categoryMatchId }

/-- The authenticated client: the account lists fetched by getLists, plus the
identifier the library hands to the next item created by createItem. -/
structure AnyListClient where
  lists : List AnyListList
  freshId : String
  deriving Repr, DecidableEq

/-- Models the wrapped anylist library call list.getItemByName: exact name
lookup among the items of the list. -/
def getItemByName (l : AnyListList) (n : String) : Option AnyListItem :=
  l.items.find? (fun i => i.name == n)

/-- Models the wrapped anylist library call client.getListByName: exact name
lookup among the account lists. -/
def clientGetListByName (c : AnyListClient) (n : String) : Option AnyListList :=
  c.lists.find? (fun l => l.name == n)

/-- findItemByName of src/types.ts: exact match through the library lookup
first, then a case-insensitive scan of the items. -/
def findItemByName (l : AnyListList) (n : String) : Option AnyListItem :=
  match getItemByName l n with
  | some i => some i
  | none => l.items.find? (fun i => toLowerCase i.name == toLowerCase n)

/-- getListByName of src/types.ts: exact match through the library lookup
first, then a case-insensitive scan of the fetched lists. -/
def getListByName (c : AnyListClient) (n : String) : Option AnyListList :=
  match clientGetListByName c n with
  | some l => some l
  | none => c.lists.find? (fun l => toLowerCase l.name == toLowerCase n)

/-- Helper used to prove the lookup theorems: a list whose find is none has
no member satisfying the predicate, so a member satisfying it forces find to
return a value that itself satisfies it. -/
theorem find?_of_exists {α : Type} (p : α → Bool) (xs : List α)
    (h : ∃ x ∈ xs, p x = true) : ∃ y, xs.find? p = some y ∧ p y = true := by
  rcases h with ⟨x, hx, hpx⟩
  cases hfind : xs.find? p with
  | none =>
    exact absurd hpx (by simpa using List.find?_eq_none.mp hfind x hx)
  | some y =>
    exact ⟨y, rfl, List.find?_some hfind⟩

/-- C1: for every list and query string, findItemByName (and getListByName
for lists) returns an entry whose name equals the query ignoring ASCII case
whenever such an entry exists, and an exact-case match is preferred over a
case-insensitive one. -/
theorem findItemByName_case_insensitive (l : AnyListList) (c : AnyListClient)
    (n : String) :
    ((∃ i ∈ l.items, toLowerCase i.name = toLowerCase n) →
      ∃ i, findItemByName l n = some i ∧ toLowerCase i.name = toLowerCase n) ∧
    ((∃ i ∈ l.items, i.name = n) →
      ∃ i, findItemByName l n = some i ∧ i.name = n) ∧
    ((∃ m ∈ c.lists, toLowerCase m.name = toLowerCase n) →
      ∃ m, getListByName c n = some m ∧ toLowerCase m.name = toLowerCase n) ∧
    ((∃ m ∈ c.lists, m.name = n) →
      ∃ m, getListByName c n = some m ∧ m.name = n) := by
  refine ⟨?_, ?_, ?_, ?_⟩
  · intro h
    unfold findItemByName getItemByName
    cases hexact : l.items.find? (fun i => i.name == n) with
    | some i =>
      refine ⟨i, rfl, ?_⟩
      have := List.find?_some hexact
      simp only [beq_iff_eq] at this
      rw [this]
    | none =>
      have h2 : ∃ i ∈ l.items,
          (toLowerCase i.name == toLowerCase n) = true := by
        rcases h with ⟨i, hi, hci⟩
        exact ⟨i, hi, by simpa using hci⟩
      rcases find?_of_exists _ _ h2 with ⟨i, hfind, hpi⟩
      exact ⟨i, by simpa using hfind, by simpa using hpi⟩
  · intro h
    unfold findItemByName getItemByName
    have h2 : ∃ i ∈ l.items, (i.name == n) = true := by
      rcases h with ⟨i, hi, hni⟩
      exact ⟨i, hi, by simpa using hni⟩
    rcases find?_of_exists _ _ h2 with ⟨i, hfind, hpi⟩
    rw [hfind]
    exact ⟨i, rfl, by simpa using hpi⟩
  · intro h
    unfold getListByName clientGetListByName
    cases hexact : c.lists.find? (fun m => m.name == n) with
    | some m =>
      refine ⟨m, rfl, ?_⟩
      have := List.find?_some hexact
      simp only [beq_iff_eq] at this
      rw [this]
    | none =>
      have h2 : ∃ m ∈ c.lists,
          (toLowerCase m.name == toLowerCase n) = true := by
        rcases h with ⟨m, hm, hcm⟩
        exact ⟨m, hm, by simpa using hcm⟩
      rcases find?_of_exists _ _ h2 with ⟨m, hfind, hpm⟩
      exact ⟨m, by simpa using hfind, by simpa using hpm⟩
  · intro h
    unfold getListByName clientGetListByName
    have h2 : ∃ m ∈ c.lists, (m.name == n) = true := by
      rcases h with ⟨m, hm, hnm⟩
      exact ⟨m, hm, by simpa using hnm⟩
    rcases find?_of_exists _ _ h2 with ⟨m, hfind, hpm⟩
    rw [hfind]
    exact ⟨m, rfl, by simpa using hpm⟩

/-- Demo item used by the concrete witnesses. -/
def demoItemMilk : AnyListItem :=
  { name := "Milk", quantity := "2", checked := false,
    identifier := "item-1", categoryMatchId := "dairy", details := "" }

/-- Demo checked item used by the concrete witnesses. -/
def demoItemEggs : AnyListItem :=
  { name := "Eggs", quantity := "", checked := true,
    identifier := "item-2", categoryMatchId := "dairy", details := "" }

/-- Demo list used by the concrete witnesses. -/
def demoList : AnyListList :=
  { name := "Groceries", identifier := "list-1",
    items := [demoItemMilk, demoItemEggs] }

/-- Demo client used by the concrete witnesses. -/
def demoClient : AnyListClient :=
  { lists := [demoList], freshId := "item-new" }

/-- Witness for C1: on the demo list the query MILK, which differs from the
stored name Milk only in ASCII case, is found. -/
theorem findItemByName_case_insensitive_witness :
    ∃ i, findItemByName demoList "MILK" = some i ∧
      toLowerCase i.name = toLowerCase "MILK" :=
  (findItemByName_case_insensitive demoList demoClient "MILK").1
    ⟨demoItemMilk, by decide, by decide⟩

/-- Category table of src/types.ts: friendly names mapped to the internal
AnyList category identifiers. -/
def ANYLIST_CATEGORIES : List (String × String) :=
  [("produce", "produce"),
   ("meat", "meat-seafood"),
   ("seafood", "meat-seafood"),
   ("dairy", "dairy"),
   ("bakery", "bakery-bread"),
   ("bread", "bakery-bread"),
   ("frozen", "frozen"),
   ("canned", "canned-goods"),
   ("condiments", "condiments"),
   ("beverages", "beverages"),
   ("snacks", "snacks"),
   ("pasta", "pasta-rice"),
   ("rice", "pasta-rice"),
   ("cereal", "breakfast"),
   ("breakfast", "breakfast"),
   ("baking", "baking"),
   ("spices", "spices-seasonings"),
   ("seasonings", "spices-seasonings"),
   ("household", "household"),
   ("personal care", "personal-care"),
   ("other", "other")]

/-- Exit code Success of src/types.ts. -/
def ExitCode.Success : Nat := 0

/-- Exit code Failure of src/types.ts. -/
def ExitCode.Failure : Nat := 1

/-- Exit code InvalidUsage of src/types.ts. -/
def ExitCode.InvalidUsage : Nat := 2

/-- Exit code AuthFailure of src/types.ts. -/
def ExitCode.AuthFailure : Nat := 3

/-- JSON values, used to model the contents of the config file and the
behaviour of the JSON builtins called by src/config.ts at the value level. -/
inductive JsonVal where
  | null : JsonVal
  | bool (b : Bool) : JsonVal
  | num (n : Int) : JsonVal
  | str (s : String) : JsonVal
  | arr (elems : List JsonVal) : JsonVal
  | obj (fields : List (String × JsonVal)) : JsonVal

/-- Property access j.k on a parsed JSON value, as the config code performs
it with optional chaining: a field of an object, undefined otherwise. -/
def jsLookup (j : JsonVal) (k : String) : Option JsonVal :=
  match j with
  | .obj fields => (fields.find? (fun p => p.1 == k)).map (fun p => p.2)
  | _ => none

/-- JavaScript truthiness of an optional JSON value: undefined, null, false,
zero and the empty string are falsy. -/
def jsTruthy : Option JsonVal → Bool
  | none => false
  | some .null => false
  | some (.bool b) => b
  | some (.num n) => !(n == 0)
  | some (.str s) => !(s == "")
  | some (.arr _) => true
  | some (.obj _) => true

/-- Credential pair of src/config.ts. -/
structure AnyListConfig where
  email : String
  password : String
  deriving Repr, DecidableEq

/-- The JSON value JSON.stringify writes for a config: an object with the
email and password fields in plaintext. -/
def configJson (c : AnyListConfig) : JsonVal :=
  .obj [("email", .str c.email), ("password", .str c.password)]

/-- One file on disk: its parsed JSON value (none when the contents are not
valid JSON) and its permission mode. -/
structure FileData where
  json : Option JsonVal
  mode : Nat

/-- The filesystem, as a map from paths to files. -/
structure FileSystem where
  files : String → Option FileData

/-- getConfigPath of src/config.ts: the fixed per-user path
home/.config/anylist-cli/config.json. -/
def getConfigPath (home : String) : String :=
  home ++ "/.config/anylist-cli/config.json"

/-- saveConfig of src/config.ts: writeFileSync of the stringified config at
the config path.  The contents are replaced wholesale; the mode option
0o600 takes effect only when the file is created, a pre-existing file
keeping its previous mode, as writeFileSync applies the mode only at
creation. -/
def saveConfig (home : String) (c : AnyListConfig) (fs : FileSystem) :
    FileSystem :=
  { files := fun p =>
      if p = getConfigPath home then
        match fs.files (getConfigPath home) with
        | none => some ⟨some (configJson c), 0o600⟩
        | some old => some ⟨some (configJson c), old.mode⟩
      else fs.files p }

/-- loadConfig of src/config.ts: none when the file is absent or JSON.parse
throws, otherwise the parsed value, returned raw (the cast to AnyListConfig
performs no validation). -/
def loadConfig (home : String) (fs : FileSystem) : Option JsonVal :=
  match fs.files (getConfigPath home) with
  | none => none
  | some fd => fd.json

/-- Environment variables read by src/config.ts. -/
structure EnvVars where
  anylistEmail : Option String
  anylistPassword : Option String

/-- loadConfigFromEnv of src/config.ts: the pair from ANYLIST_EMAIL and
ANYLIST_PASSWORD when both are truthy, none otherwise. -/
def loadConfigFromEnv (env : EnvVars) : Option AnyListConfig :=
  match env.anylistEmail, env.anylistPassword with
  | some e, some p =>
    if !(e == "") && !(p == "") then some { email := e, password := p }
    else none
  | _, _ => none

/-- requireConfig of src/config.ts: environment credentials first; otherwise
the file config when its email and password fields are truthy; otherwise the
process exits with AuthFailure.  The successful result is the JavaScript
object the function returns. -/
def requireConfig (env : EnvVars) (home : String) (fs : FileSystem) :
    Except Nat JsonVal :=
  match loadConfigFromEnv env with
  | some c => .ok (configJson c)
  | none =>
    match loadConfig home fs with
    | some j =>
      if jsTruthy (jsLookup j "email") && jsTruthy (jsLookup j "password") then
        .ok j
      else .error ExitCode.AuthFailure
    | none => .error ExitCode.AuthFailure

/-- C5: when credentials are present in ANYLIST_EMAIL and ANYLIST_PASSWORD,
requireConfig returns exactly those credentials, and its result does not
depend on the config file at all. -/
theorem requireConfig_env_precedence (env : EnvVars) (home : String)
    (fs : FileSystem) (e p : String)
    (he : env.anylistEmail = some e) (hp : env.anylistPassword = some p)
    (hne : e ≠ "") (hnp : p ≠ "") :
    requireConfig env home fs = .ok (configJson { email := e, password := p }) ∧
    (∀ fs' : FileSystem, requireConfig env home fs' =
      requireConfig env home fs) := by
  have henv : loadConfigFromEnv env = some { email := e, password := p } := by
    unfold loadConfigFromEnv
    rw [he, hp]
    simp [hne, hnp]
  constructor
  · unfold requireConfig
    rw [henv]
  · intro fs'
    unfold requireConfig
    rw [henv]

/-- The empty filesystem, used by the concrete witnesses. -/
def emptyFS : FileSystem :=
  { files := fun _ => none }

/-- A filesystem holding a config file with credentials different from the
environment ones, used by the concrete witnesses. -/
def demoFS : FileSystem :=
  saveConfig "/home/u" { email := "old@example.com", password := "oldpw" }
    emptyFS

/-- Demo environment with credentials set, used by the concrete witnesses. -/
def demoEnv : EnvVars :=
  { anylistEmail := some "env@example.com", anylistPassword := some "envpw" }

/-- Witness for C5: with credentials in the environment and different
credentials stored on disk, requireConfig returns the environment pair. -/
theorem requireConfig_env_precedence_witness :
    requireConfig demoEnv "/home/u" demoFS =
      .ok (configJson { email := "env@example.com", password := "envpw" }) :=
  (requireConfig_env_precedence demoEnv "/home/u" demoFS
    "env@example.com" "envpw" rfl rfl (by decide) (by decide)).1

/-- C6: saving a config and loading it back yields the same email and
password values, and the saved file contents are the stringified config
whatever the file held before the save. -/
theorem config_roundtrip (home : String) (c : AnyListConfig)
    (fs : FileSystem) :
    loadConfig home (saveConfig home c fs) = some (configJson c) ∧
    jsLookup (configJson c) "email" = some (.str c.email) ∧
    jsLookup (configJson c) "password" = some (.str c.password) ∧
    (∀ fs' : FileSystem,
      ((saveConfig home c fs').files (getConfigPath home)).bind
        FileData.json = some (configJson c)) := by
  refine ⟨?_, ?_, ?_, ?_⟩
  · cases hf : fs.files (getConfigPath home) <;>
      simp [loadConfig, saveConfig, hf]
  · simp [jsLookup, configJson]
  · simp [jsLookup, configJson]
  · intro fs'
    cases hf : fs'.files (getConfigPath home) <;> simp [saveConfig, hf]

/-- A filesystem in which the config file already exists with the group and
world readable mode 0o644, used by the C7 counterexample. -/
def preexistingFS : FileSystem :=
  ⟨fun p => if p = getConfigPath "/home/u" then
    some ⟨some JsonVal.null, 0o644⟩ else none⟩

/-- Counterexample for C7: saving over a config file that already exists
with mode 0o644 leaves the mode at 0o644, because writeFileSync applies its
mode option only when the file is created; the claim that the mode is
restricted to 0o600 after every saveConfig call is refuted. -/
theorem saveConfig_mode_counterexample :
    ((saveConfig "/home/u" { email := "a", password := "b" }
        preexistingFS).files (getConfigPath "/home/u")).map FileData.mode =
      some 0o644 ∧
    ¬(((saveConfig "/home/u" { email := "a", password := "b" }
        preexistingFS).files (getConfigPath "/home/u")).map FileData.mode =
      some 0o600) := by
  decide

/-- C7 as amended: after every saveConfig call the file at the fixed
per-user config path holds the email and password as plaintext JSON and no
other path is touched; its mode is 0o600 when the save created the file,
while a pre-existing file keeps its previous mode. -/
theorem saveConfig_plaintext_mode (home : String) (c : AnyListConfig)
    (fs : FileSystem) :
    ((saveConfig home c fs).files (getConfigPath home)).bind FileData.json =
      some (JsonVal.obj
        [("email", .str c.email), ("password", .str c.password)]) ∧
    (fs.files (getConfigPath home) = none →
      (saveConfig home c fs).files (getConfigPath home) =
        some ⟨some (configJson c), 0o600⟩) ∧
    (∀ old : FileData, fs.files (getConfigPath home) = some old →
      (saveConfig home c fs).files (getConfigPath home) =
        some ⟨some (configJson c), old.mode⟩) ∧
    (∀ p : String, p ≠ getConfigPath home →
      (saveConfig home c fs).files p = fs.files p) := by
  refine ⟨?_, ?_, ?_, ?_⟩
  · cases hf : fs.files (getConfigPath home) <;>
      simp [saveConfig, hf, configJson]
  · intro h
    simp [saveConfig, h]
  · intro old h
    simp [saveConfig, h]
  · intro p hp
    simp [saveConfig, hp]

/-- Witness for the amended C7: creating the file sets mode 0o600, saving
over the 0o644 file keeps 0o644, and an unrelated path stays untouched. -/
theorem saveConfig_plaintext_mode_witness :
    (saveConfig "/home/u" { email := "a", password := "b" } emptyFS).files
      (getConfigPath "/home/u") =
      some ⟨some (configJson { email := "a", password := "b" }), 0o600⟩ ∧
    (saveConfig "/home/u" { email := "a", password := "b" }
        preexistingFS).files (getConfigPath "/home/u") =
      some ⟨some (configJson { email := "a", password := "b" }), 0o644⟩ ∧
    (saveConfig "/home/u" { email := "a", password := "b" } emptyFS).files
      "/etc/hosts" = emptyFS.files "/etc/hosts" :=
  ⟨(saveConfig_plaintext_mode "/home/u" { email := "a", password := "b" }
      emptyFS).2.1 rfl,
   (saveConfig_plaintext_mode "/home/u" { email := "a", password := "b" }
      preexistingFS).2.2.1 ⟨some JsonVal.null, 0o644⟩ rfl,
   (saveConfig_plaintext_mode "/home/u" { email := "a", password := "b" }
      emptyFS).2.2.2 "/etc/hosts" (by decide)⟩

/-- Replacement of the first element satisfying a predicate, used to express
in-place mutation of the object a lookup returned. -/
def updateFirst {α : Type} (p : α → Bool) (f : α → α) : List α → List α
  | [] => []
  | x :: rest => if p x then f x :: rest else x :: updateFirst p f rest

/-- Removal of the first element satisfying a predicate, used to express the
library call list.removeItem on the object a lookup returned. -/
def removeFirst {α : Type} (p : α → Bool) : List α → List α
  | [] => []
  | x :: rest => if p x then rest else x :: removeFirst p rest

/-- Characterisation of updateFirst when the lookup succeeds: exactly the
found occurrence is replaced. -/
theorem updateFirst_spec {α : Type} (p : α → Bool) (f : α → α) :
    ∀ (xs : List α) (y : α), xs.find? p = some y →
      ∃ k, xs.get? k = some y ∧ updateFirst p f xs = xs.set k (f y) := by
  intro xs
  induction xs with
  | nil => intro y h; simp at h
  | cons x rest ih =>
    intro y h
    by_cases hp : p x
    · rw [List.find?_cons_of_pos _ hp] at h
      obtain rfl : x = y := by simpa using h
      exact ⟨0, rfl, by simp [updateFirst, hp]⟩
    · rw [List.find?_cons_of_neg _ hp] at h
      obtain ⟨k, hk, hu⟩ := ih y h
      exact ⟨k + 1, by simpa using hk, by simp [updateFirst, hp, hu]⟩

/-- updateFirst preserves the length of the list. -/
theorem updateFirst_length {α : Type} (p : α → Bool) (f : α → α) :
    ∀ xs : List α, (updateFirst p f xs).length = xs.length := by
  intro xs
  induction xs with
  | nil => rfl
  | cons x rest ih => by_cases hp : p x <;> simp [updateFirst, hp, ih]

/-- Mutation of the item object findItemByName returns, inside its list: the
first exact-name match when one exists, the first case-insensitive match
otherwise. -/
def mutateItemByName (l : AnyListList) (n : String)
    (f : AnyListItem → AnyListItem) : AnyListList :=
  match getItemByName l n with
  | some _ => { l with items := updateFirst (fun i => i.name == n) f l.items }
  | none =>
    { l with items :=
        updateFirst (fun i => toLowerCase i.name == toLowerCase n) f l.items }

/-- Mutation of the list object getListByName returns, inside the account
lists: the first exact-name match when one exists, the first
case-insensitive match otherwise. -/
def mutateListByName (c : AnyListClient) (n : String)
    (f : AnyListList → AnyListList) : AnyListClient :=
  match clientGetListByName c n with
  | some _ => { c with lists := updateFirst (fun l => l.name == n) f c.lists }
  | none =>
    { c with lists :=
        updateFirst (fun l => toLowerCase l.name == toLowerCase n) f c.lists }

/-- checkItem of src/types.ts: null when the item is missing, otherwise the
info of the item after setting checked to true, next to the updated list. -/
def checkItem (l : AnyListList) (n : String) :
    Option (ItemInfo × AnyListList) :=
  match findItemByName l n with
  | none => none
  | some item =>
    some (itemInfo { item with checked := true },
      mutateItemByName l n (fun i => { i with checked := true }))

/-- uncheckItem of src/types.ts: null when the item is missing, otherwise
the info of the item after setting checked to false, next to the updated
list. -/
def uncheckItem (l : AnyListList) (n : String) :
    Option (ItemInfo × AnyListList) :=
  match findItemByName l n with
  | none => none
  | some item =>
    some (itemInfo { item with checked := false },
      mutateItemByName l n (fun i => { i with checked := false }))

/-- removeItem of src/types.ts: false when the item is missing, otherwise
true next to the list without the found occurrence. -/
def removeItem (l : AnyListList) (n : String) : Bool × AnyListList :=
  match findItemByName l n with
  | none => (false, l)
  | some _ =>
    match getItemByName l n with
    | some _ =>
      (true, { l with items := removeFirst (fun i => i.name == n) l.items })
    | none =>
      let p := fun i : AnyListItem => toLowerCase i.name == toLowerCase n
      (true, { l with items := removeFirst p l.items })

/-- The conditional uncheck step of addItem on an existing item. -/
def applyUncheck (it : AnyListItem) : AnyListItem :=
  if it.checked then { it with checked := false } else it

/-- The conditional quantity overwrite step of addItem on an existing
item. -/
def applyQuantity (it : AnyListItem) (q : Option String) : AnyListItem :=
  if strTruthy q then { it with quantity := q.getD it.quantity } else it

/-- The conditional category overwrite step of addItem on an existing
item. -/
def applyCategory (it : AnyListItem) (cat : Option String) : AnyListItem :=
  if strTruthy cat then { it with categoryMatchId := cat.getD it.categoryMatchId }
  else it

/-- The conditional details overwrite step of addItem on an existing item:
applied whenever the argument is not undefined. -/
def applyDetails (it : AnyListItem) (det : Option String) : AnyListItem :=
  match det with
  | some d => { it with details := d }
  | none => it

/-- The full sequence of conditional assignments addItem performs on an
existing item. -/
def applyAddUpdates (it : AnyListItem) (q cat det : Option String) :
    AnyListItem :=
  applyDetails (applyCategory (applyQuantity (applyUncheck it) q) cat) det

/-- The needsSave flag of addItem: set exactly by the assignments actually
performed on the existing item. -/
def addNeedsSave (it : AnyListItem) (q cat det : Option String) : Bool :=
  it.checked || strTruthy q || strTruthy cat || det.isSome

/-- Models client.createItem of the wrapped library applied to the options
object addItem builds: a fresh unchecked item carrying the supplied fields. -/
def createItem (c : AnyListClient) (name : String)
    (q cat det : Option String) : AnyListItem :=
  { name := name
    quantity := if strTruthy q then q.getD "" else ""
    checked := false
    identifier := c.freshId
    categoryMatchId := if strTruthy cat then cat.getD "" else ""
    details := det.getD "" }

/-- Result of addItem: the returned ItemInfo, the updated list, whether
save was called on an existing item, and whether a new item was created. -/
structure AddItemResult where
  info : ItemInfo
  list : AnyListList
  saved : Bool
  created : Bool
  deriving Repr, DecidableEq

/-- addItem of src/types.ts: update the existing item when a
case-insensitive match exists, otherwise create a new item and append it to
the list. -/
def addItem (c : AnyListClient) (l : AnyListList) (name : String)
    (q cat det : Option String) : AddItemResult :=
  match findItemByName l name with
  | some ex =>
    { info := itemInfo (applyAddUpdates ex q cat det)
      list := mutateItemByName l name (fun i => applyAddUpdates i q cat det)
      saved := addNeedsSave ex q cat det
      created := false }
  | none =>
    { info := itemInfo (createItem c name q cat det)
      list := { l with items := l.items ++ [createItem c name q cat det] }
      saved := false
      created := true }

/-- Whether the addItem call awaits a library call that can throw: save on
an existing item needing it, or list.addItem on a created item. -/
def addItemThrows (l : AnyListList) (name : String)
    (q cat det : Option String) : Bool :=
  match findItemByName l name with
  | some ex => addNeedsSave ex q cat det
  | none => true

/-- Closed form of the conditional assignment sequence of addItem. -/
theorem applyAddUpdates_eq (it : AnyListItem) (q cat det : Option String) :
    applyAddUpdates it q cat det =
      { name := it.name
        quantity := if strTruthy q then q.getD "" else it.quantity
        checked := false
        identifier := it.identifier
        categoryMatchId := if strTruthy cat then cat.getD "" else it.categoryMatchId
        details := det.getD it.details } := by
  obtain ⟨nm, qt, ch, idf, cm, dt⟩ := it
  unfold applyAddUpdates applyDetails applyCategory applyQuantity applyUncheck
  rcases q with _ | qs <;> rcases cat with _ | cs <;> rcases det with _ | d <;>
    cases ch <;>
    simp only [strTruthy, Option.getD_some, Option.getD_none] <;>
    (try split_ifs) <;> simp_all

/-- C9: addItem on a list already holding a case-insensitive match never
creates a second item: it returns the info of the existing item after
unchecking it and overwriting quantity, category and details exactly for the
arguments actually supplied, calls save exactly when at least one such
assignment happened, and replaces only the matched occurrence in the list;
a new item is appended only when no match exists. -/
theorem addItem_no_duplicate (c : AnyListClient) (l : AnyListList)
    (name : String) (q cat det : Option String) :
    (∀ ex, findItemByName l name = some ex →
      (addItem c l name q cat det).created = false ∧
      (addItem c l name q cat det).saved =
        (ex.checked || strTruthy q || strTruthy cat || det.isSome) ∧
      (addItem c l name q cat det).info =
        itemInfo (applyAddUpdates ex q cat det) ∧
      (applyAddUpdates ex q cat det).checked = false ∧
      (applyAddUpdates ex q cat det).name = ex.name ∧
      (applyAddUpdates ex q cat det).identifier = ex.identifier ∧
      (applyAddUpdates ex q cat det).quantity =
        (if strTruthy q then q.getD "" else ex.quantity) ∧
      (applyAddUpdates ex q cat det).categoryMatchId =
        (if strTruthy cat then cat.getD "" else ex.categoryMatchId) ∧
      (applyAddUpdates ex q cat det).details = det.getD ex.details ∧
      (addItem c l name q cat det).list.items.length = l.items.length ∧
      ∃ k, l.items.get? k = some ex ∧
        (addItem c l name q cat det).list.items =
          l.items.set k (applyAddUpdates ex q cat det)) ∧
    (findItemByName l name = none →
      (addItem c l name q cat det).created = true ∧
      (addItem c l name q cat det).saved = false ∧
      (addItem c l name q cat det).list.items =
        l.items ++ [createItem c name q cat det]) := by
  constructor
  · intro ex hex
    have heq := applyAddUpdates_eq ex q cat det
    have hfind : ∃ k, l.items.get? k = some ex ∧
        (mutateItemByName l name
          (fun i => applyAddUpdates i q cat det)).items =
        l.items.set k (applyAddUpdates ex q cat det) := by
      unfold findItemByName at hex
      unfold mutateItemByName
      cases hg : getItemByName l name with
      | some j =>
        rw [hg] at hex
        have hje : j = ex := by simpa using hex
        unfold getItemByName at hg
        rw [hje] at hg
        obtain ⟨k, hk, hu⟩ := updateFirst_spec _
          (fun i => applyAddUpdates i q cat det) l.items ex hg
        exact ⟨k, hk, by simpa using hu⟩
      | none =>
        rw [hg] at hex
        have hex2 : l.items.find?
            (fun i => toLowerCase i.name == toLowerCase name) = some ex := hex
        obtain ⟨k, hk, hu⟩ := updateFirst_spec _
          (fun i => applyAddUpdates i q cat det) l.items ex hex2
        exact ⟨k, hk, by simpa using hu⟩
    refine ⟨?_, ?_, ?_, ?_, ?_, ?_, ?_, ?_, ?_, ?_, ?_⟩
    · simp [addItem, hex]
    · simp [addItem, hex, addNeedsSave]
    · simp [addItem, hex]
    · rw [heq]
    · rw [heq]
    · rw [heq]
    · rw [heq]
    · rw [heq]
    · rw [heq]
    · obtain ⟨k, hk, hu⟩ := hfind
      simp [addItem, hex, hu, List.length_set]
    · obtain ⟨k, hk, hu⟩ := hfind
      exact ⟨k, hk, by simp [addItem, hex, hu]⟩
  · intro hnone
    refine ⟨by simp [addItem, hnone], by simp [addItem, hnone],
      by simp [addItem, hnone]⟩

/-- Witness for C9: adding Milk (different casing, new quantity) to the demo
list updates the existing item in place, and adding an unmatched name
appends a new item. -/
theorem addItem_no_duplicate_witness :
    ((addItem demoClient demoList "MILK" (some "3") none none).created =
        false ∧
      (addItem demoClient demoList "MILK" (some "3") none none).saved =
        true) ∧
    (addItem demoClient demoList "Butter" none none none).created = true := by
  constructor
  · have h := (addItem_no_duplicate demoClient demoList "MILK"
      (some "3") none none).1 demoItemMilk (by decide)
    exact ⟨h.1, by rw [h.2.1]; decide⟩
  · exact ((addItem_no_duplicate demoClient demoList "Butter"
      none none none).2 (by decide)).1

/-- Models the wrapped library call list.removeItem applied to an item
object held in the list: the first occurrence equal to it is removed. -/
def listRemoveItem (l : AnyListList) (it : AnyListItem) : AnyListList :=
  { l with items := l.items.erase it }

/-- clearChecked of src/types.ts: snapshot the checked items, remove each
through the library, counting the removals. -/
def clearChecked (l : AnyListList) : Nat × AnyListList :=
  (l.items.filter (fun i => i.checked)).foldl
    (fun acc it => (acc.1 + 1, listRemoveItem acc.2 it)) (0, l)

/-- Erasing elements that all differ from the head leaves the head in
place. -/
theorem foldl_erase_cons {α : Type} [DecidableEq α] (x : α) :
    ∀ (es : List α) (xs : List α), (∀ e ∈ es, e ≠ x) →
      es.foldl (fun acc e => acc.erase e) (x :: xs) =
        x :: es.foldl (fun acc e => acc.erase e) xs := by
  intro es
  induction es with
  | nil => intro xs _; rfl
  | cons e es ih =>
    intro xs h
    have hex : e ≠ x := h e (by simp)
    have hstep : (x :: xs).erase e = x :: xs.erase e := by
      rw [List.erase_cons]
      simp [Ne.symm hex]
    simp only [List.foldl_cons, hstep]
    exact ih (xs.erase e) (fun e2 he2 => h e2 (by simp [he2]))

/-- Erasing from a list exactly its elements satisfying a predicate leaves
exactly the elements not satisfying it. -/
theorem foldl_erase_filter {α : Type} [DecidableEq α] (p : α → Bool) :
    ∀ xs : List α,
      (xs.filter p).foldl (fun acc e => acc.erase e) xs =
        xs.filter (fun x => !p x) := by
  intro xs
  induction xs with
  | nil => rfl
  | cons x rest ih =>
    by_cases hp : p x
    · rw [List.filter_cons_of_pos hp]
      simp only [List.foldl_cons, List.erase_cons_head]
      rw [ih, List.filter_cons_of_neg (by simp [hp])]
    · rw [List.filter_cons_of_neg hp]
      rw [foldl_erase_cons x (rest.filter p) rest
        (fun e he => by
          have hpe : p e = true := List.of_mem_filter he
          intro hcontra
          rw [hcontra] at hpe
          exact hp hpe)]
      rw [ih, List.filter_cons_of_pos (by simp [hp])]

/-- The counting fold of clearChecked, in closed form. -/
theorem clearFold_spec :
    ∀ (es : List AnyListItem) (n : Nat) (l : AnyListList),
      es.foldl (fun acc it => (acc.1 + 1, listRemoveItem acc.2 it)) (n, l) =
        (n + es.length,
          { l with items := es.foldl (fun acc e => acc.erase e) l.items }) := by
  intro es
  induction es with
  | nil => intro n l; simp
  | cons e es ih =>
    intro n l
    simp only [List.foldl_cons]
    rw [ih]
    simp only [listRemoveItem, Prod.mk.injEq, List.length_cons]
    exact ⟨by omega, trivial⟩

/-- C10: clearChecked removes exactly the checked items and returns their
count; every unchecked item stays, and on a list without checked items it
removes nothing and returns zero. -/
theorem clearChecked_spec (l : AnyListList) :
    (clearChecked l).1 = (l.items.filter (fun i => i.checked)).length ∧
    (clearChecked l).2.items = l.items.filter (fun i => !i.checked) ∧
    ((∀ i ∈ l.items, i.checked = false) →
      (clearChecked l).1 = 0 ∧ (clearChecked l).2 = l) := by
  have h := clearFold_spec (l.items.filter (fun i => i.checked)) 0 l
  have h2 := foldl_erase_filter (fun i : AnyListItem => i.checked) l.items
  refine ⟨?_, ?_, ?_⟩
  · unfold clearChecked
    rw [h]
    simp
  · unfold clearChecked
    rw [h]
    simpa using h2
  · intro hall
    have hempty : l.items.filter (fun i => i.checked) = [] := by
      apply List.filter_eq_nil_iff.mpr
      intro i hi
      simp [hall i hi]
    unfold clearChecked
    rw [hempty]
    simp

/-- Demo list with no checked items, used by the concrete witnesses. -/
def demoListUnchecked : AnyListList :=
  { name := "G", identifier := "l2", items := [demoItemMilk] }

/-- Witness for C10: on a demo list whose items are all unchecked,
clearChecked removes nothing and returns zero. -/
theorem clearChecked_spec_witness :
    (clearChecked demoListUnchecked).1 = 0 ∧
      (clearChecked demoListUnchecked).2 = demoListUnchecked :=
  (clearChecked_spec demoListUnchecked).2.2 (by decide)

/-- Names of the own properties of Object.prototype, which JavaScript
bracket access on a plain object literal finds through the prototype chain
when the object has no own property under the key. -/
def objectPrototypeProps : List String :=
  ["constructor", "hasOwnProperty", "isPrototypeOf", "propertyIsEnumerable",
   "toLocaleString", "toString", "valueOf", "__proto__",
   "__defineGetter__", "__defineSetter__", "__lookupGetter__",
   "__lookupSetter__"]

/-- Result of a JavaScript bracket access on the category table: an own
entry yields its category id string; a property inherited from
Object.prototype yields the function or object stored there, which is truthy
at runtime; any other key yields undefined. -/
inductive CategoryAccess where
  | ownVal (id : String) : CategoryAccess
  | protoVal (name : String) : CategoryAccess
  | undefinedVal : CategoryAccess
  deriving Repr, DecidableEq

/-- Models the bracket access on the ANYLIST_CATEGORIES object literal,
prototype chain included. -/
def categoryAccess (key : String) : CategoryAccess :=
  match ANYLIST_CATEGORIES.lookup key with
  | some v => .ownVal v
  | none =>
    if objectPrototypeProps.contains key then .protoVal key else .undefinedVal

/-- JavaScript truthiness of the accessed category value: an own id string
is truthy when non-empty, an inherited function or object is always truthy,
undefined is falsy. -/
def categoryTruthy : CategoryAccess → Bool
  | .ownVal v => !(v == "")
  | .protoVal _ => true
  | .undefinedVal => false

/-- The categoryId value the add command passes to addItem.  For an own key
this is the id string.  For an inherited Object.prototype member the runtime
passes the function or object itself, which the string-typed item model
cannot hold; the embedding records it as the property name, a truthy value
like the runtime one. -/
def CategoryAccess.asArg : CategoryAccess → Option String
  | .ownVal v => some v
  | .protoVal name => some name
  | .undefinedVal => none

/-- The optional categoryId produced by the category mapping step. -/
def categoryArg : Option CategoryAccess → Option String
  | none => none
  | some a => a.asArg

/-- The category mapping step of the add command: undefined when no truthy
category option was given, the accessed value when the bracket access on the
lowercased value is truthy, and an InvalidUsage exit otherwise. -/
def resolveCategory (category : Option String) :
    Except Nat (Option CategoryAccess) :=
  if strTruthy category then
    let acc := categoryAccess (toLowerCase (category.getD ""))
    if categoryTruthy acc then .ok (some acc)
    else .error ExitCode.InvalidUsage
  else .ok none

/-- One CLI invocation environment: the process environment, the home
directory, the filesystem, the account data behind the wrapped library, and
whether each kind of awaited library call throws. -/
structure World where
  env : EnvVars
  home : String
  fs : FileSystem
  loginOk : Bool
  client : AnyListClient
  fetchErr : Bool
  saveErr : Bool

/-- Outcome of one command invocation: the process exit code, whether
teardown ran before the exit, whether a thrown error was caught at the
dispatch boundary, and the account lists when the process ends. -/
structure CmdOutcome where
  exitCode : Nat
  tornDown : Bool
  errored : Bool
  finalLists : List AnyListList
  deriving Repr, DecidableEq

/-- Outcome of a path that completes normally: teardown ran, exit code 0. -/
def outOk (ls : List AnyListList) : CmdOutcome := ⟨0, true, false, ls⟩

/-- Outcome of a name-not-found path: teardown ran, exit code Failure. -/
def outNotFound (ls : List AnyListList) : CmdOutcome := ⟨1, true, false, ls⟩

/-- Outcome of a thrown error caught at the dispatch boundary: exit code
Failure without teardown. -/
def outThrown (ls : List AnyListList) : CmdOutcome := ⟨1, false, true, ls⟩

/-- Outcome of the unknown-category path of the add command: teardown ran,
exit code InvalidUsage. -/
def outUsage (ls : List AnyListList) : CmdOutcome := ⟨2, true, false, ls⟩

/-- Outcome of an authentication failure before any client existed. -/
def outAuthFail (code : Nat) (ls : List AnyListList) : CmdOutcome :=
  ⟨code, false, false, ls⟩

/-- getAuthenticatedClient of the CLI: requireConfig, then login, exiting
with AuthFailure when either fails. -/
def getAuthenticatedClient (w : World) : Except Nat AnyListClient :=
  match requireConfig w.env w.home w.fs with
  | .error code => .error code
  | .ok _ =>
    if w.loginOk then .ok w.client else .error ExitCode.AuthFailure

/-- Shared shape of every authenticated command action: authenticate, then
run the command body on the client. -/
def authOutcome (w : World) (k : AnyListClient → CmdOutcome) : CmdOutcome :=
  match getAuthenticatedClient w with
  | .error code => outAuthFail code w.client.lists
  | .ok c => k c

/-- Body of the lists command. -/
def listsStep (w : World) (c : AnyListClient) : CmdOutcome :=
  if w.fetchErr then outThrown c.lists else outOk c.lists

/-- Body of the items command. -/
def itemsStep (w : World) (listName : String) (c : AnyListClient) :
    CmdOutcome :=
  if w.fetchErr then outThrown c.lists
  else
    match getListByName c listName with
    | none => outNotFound c.lists
    | some _ => outOk c.lists

/-- Body of the add command: list lookup, category resolution, then
addItem. -/
def addStep (w : World) (listName itemName : String)
    (quantity category : Option String) (c : AnyListClient) : CmdOutcome :=
  if w.fetchErr then outThrown c.lists
  else
    match getListByName c listName with
    | none => outNotFound c.lists
    | some l =>
      match resolveCategory category with
      | .error _ => outUsage c.lists
      | .ok catAcc =>
        if w.saveErr &&
            addItemThrows l itemName quantity (categoryArg catAcc) none then
          outThrown c.lists
        else
          outOk (mutateListByName c listName
            (fun l2 =>
              (addItem c l2 itemName quantity
                (categoryArg catAcc) none).list)).lists

/-- Body of the check command. -/
def checkStep (w : World) (listName itemName : String) (c : AnyListClient) :
    CmdOutcome :=
  if w.fetchErr then outThrown c.lists
  else
    match getListByName c listName with
    | none => outNotFound c.lists
    | some l =>
      match findItemByName l itemName with
      | none => outNotFound c.lists
      | some _ =>
        if w.saveErr then outThrown c.lists
        else
          outOk (mutateListByName c listName
            (fun l2 =>
              match checkItem l2 itemName with
              | some r => r.2
              | none => l2)).lists

/-- Body of the uncheck command. -/
def uncheckStep (w : World) (listName itemName : String)
    (c : AnyListClient) : CmdOutcome :=
  if w.fetchErr then outThrown c.lists
  else
    match getListByName c listName with
    | none => outNotFound c.lists
    | some l =>
      match findItemByName l itemName with
      | none => outNotFound c.lists
      | some _ =>
        if w.saveErr then outThrown c.lists
        else
          outOk (mutateListByName c listName
            (fun l2 =>
              match uncheckItem l2 itemName with
              | some r => r.2
              | none => l2)).lists

/-- Body of the remove command. -/
def removeStep (w : World) (listName itemName : String)
    (c : AnyListClient) : CmdOutcome :=
  if w.fetchErr then outThrown c.lists
  else
    match getListByName c listName with
    | none => outNotFound c.lists
    | some l =>
      match findItemByName l itemName with
      | none => outNotFound c.lists
      | some _ =>
        if w.saveErr then outThrown c.lists
        else
          outOk (mutateListByName c listName
            (fun l2 => (removeItem l2 itemName).2)).lists

/-- Body of the clear command: the first library removal throws when the
error is injected and a checked item exists. -/
def clearStep (w : World) (listName : String) (c : AnyListClient) :
    CmdOutcome :=
  if w.fetchErr then outThrown c.lists
  else
    match getListByName c listName with
    | none => outNotFound c.lists
    | some l =>
      if w.saveErr && l.items.any (fun i => i.checked) then outThrown c.lists
      else
        outOk (mutateListByName c listName
          (fun l2 => (clearChecked l2).2)).lists

/-- The interactive auth command: TTY check, empty-credential check, login,
list fetch, teardown, save. -/
def authCmdRun (w : World) (isTTY : Bool) (email password : String) :
    CmdOutcome :=
  if !isTTY then ⟨2, false, false, w.client.lists⟩
  else if email == "" || password == "" then ⟨2, false, false, w.client.lists⟩
  else if !w.loginOk then ⟨3, false, false, w.client.lists⟩
  else if w.fetchErr then ⟨3, false, true, w.client.lists⟩
  else ⟨0, true, false, w.client.lists⟩

/-- Outcome of the commands that touch no client: logout, whoami,
categories. -/
def outPlain (w : World) : CmdOutcome := ⟨0, false, false, w.client.lists⟩

/-- One CLI invocation: the verb and its arguments. -/
inductive Invocation where
  | auth (isTTY : Bool) (email password : String) : Invocation
  | logout : Invocation
  | whoami : Invocation
  | categories : Invocation
  | lists : Invocation
  | items (listName : String) : Invocation
  | add (listName itemName : String)
      (quantity category : Option String) : Invocation
  | check (listName itemName : String) : Invocation
  | uncheck (listName itemName : String) : Invocation
  | remove (listName itemName : String) : Invocation
  | clear (listName : String) : Invocation
  deriving Repr, DecidableEq

/-- Dispatch of a parsed invocation to its command action. -/
def runCmd (w : World) : Invocation → CmdOutcome
  | .auth tty e p => authCmdRun w tty e p
  | .logout => outPlain w
  | .whoami => outPlain w
  | .categories => outPlain w
  | .lists => authOutcome w (listsStep w)
  | .items ln => authOutcome w (itemsStep w ln)
  | .add ln itn q cat => authOutcome w (addStep w ln itn q cat)
  | .check ln itn => authOutcome w (checkStep w ln itn)
  | .uncheck ln itn => authOutcome w (uncheckStep w ln itn)
  | .remove ln itn => authOutcome w (removeStep w ln itn)
  | .clear ln => authOutcome w (clearStep w ln)

/-- The authenticated commands: the seven verbs that open a client
connection. -/
def authCommand : Invocation → Bool
  | .lists => true
  | .items _ => true
  | .add _ _ _ _ => true
  | .check _ _ => true
  | .uncheck _ _ => true
  | .remove _ _ => true
  | .clear _ => true
  | _ => false

/-- The Commander error codes the exitOverride of the CLI remaps to
InvalidUsage. -/
def commanderUsageCodes : List String :=
  ["commander.missingArgument", "commander.unknownOption",
   "commander.invalidArgument", "commander.missingMandatoryOptionValue"]

/-- The exitOverride handler of the CLI: usage errors exit with
InvalidUsage, every other Commander error keeps its own exit code. -/
def exitOverride (errCode : String) (errExitCode : Nat) : Nat :=
  if commanderUsageCodes.contains errCode then ExitCode.InvalidUsage
  else errExitCode

/-- The exit codes the specification allows. -/
def validExit (n : Nat) : Prop := n = 0 ∨ n = 1 ∨ n = 2 ∨ n = 3

/-- Shape of every command body outcome: a valid exit code, teardown on
every non-thrown path, and Failure without teardown on a thrown path. -/
def stepOutcomeOk (o : CmdOutcome) : Prop :=
  validExit o.exitCode ∧
  (o.errored = false → o.tornDown = true) ∧
  (o.errored = true → o.tornDown = false ∧ o.exitCode = ExitCode.Failure)

/-- requireConfig exits only with AuthFailure. -/
theorem requireConfig_error_code (env : EnvVars) (home : String)
    (fs : FileSystem) (code : Nat)
    (h : requireConfig env home fs = .error code) :
    code = ExitCode.AuthFailure := by
  unfold requireConfig at h
  split at h
  · cases h
  · split at h
    · split at h
      · cases h
      · exact (Except.error.inj h).symm
    · exact (Except.error.inj h).symm

/-- getAuthenticatedClient exits only with AuthFailure. -/
theorem getAuthenticatedClient_error_code (w : World) (code : Nat)
    (h : getAuthenticatedClient w = .error code) :
    code = ExitCode.AuthFailure := by
  unfold getAuthenticatedClient at h
  cases hr : requireConfig w.env w.home w.fs with
  | error c2 =>
    rw [hr] at h
    have hc : c2 = code := Except.error.inj h
    rw [← hc]
    exact requireConfig_error_code _ _ _ _ hr
  | ok j =>
    rw [hr] at h
    by_cases hl : w.loginOk = true
    · rw [if_pos hl] at h
      cases h
    · rw [if_neg hl] at h
      exact (Except.error.inj h).symm

/-- When authentication succeeds the command body runs on the client. -/
theorem authOutcome_of_ok (w : World) (k : AnyListClient → CmdOutcome)
    (c : AnyListClient) (h : getAuthenticatedClient w = .ok c) :
    authOutcome w k = k c := by
  unfold authOutcome
  rw [h]

/-- Lifting a body-outcome bound through authentication. -/
theorem authOutcome_exit (w : World) (k : AnyListClient → CmdOutcome)
    (hk : ∀ c, stepOutcomeOk (k c)) :
    validExit (authOutcome w k).exitCode := by
  unfold authOutcome
  cases h : getAuthenticatedClient w with
  | error code =>
    have := getAuthenticatedClient_error_code w code h
    simp [outAuthFail, this, validExit, ExitCode.AuthFailure]
  | ok c => exact (hk c).1

/-- The lists command body has the shared outcome shape. -/
theorem listsStep_ok (w : World) (c : AnyListClient) :
    stepOutcomeOk (listsStep w c) := by
  unfold listsStep
  split <;>
    simp [stepOutcomeOk, outThrown, outOk, validExit, ExitCode.Failure]

/-- The items command body has the shared outcome shape. -/
theorem itemsStep_ok (w : World) (ln : String) (c : AnyListClient) :
    stepOutcomeOk (itemsStep w ln c) := by
  unfold itemsStep
  split
  · simp [stepOutcomeOk, outThrown, validExit, ExitCode.Failure]
  · split <;>
      simp [stepOutcomeOk, outNotFound, outOk, validExit, ExitCode.Failure]

/-- The add command body has the shared outcome shape. -/
theorem addStep_ok (w : World) (ln itn : String) (q cat : Option String)
    (c : AnyListClient) : stepOutcomeOk (addStep w ln itn q cat c) := by
  unfold addStep
  split
  · simp [stepOutcomeOk, outThrown, validExit, ExitCode.Failure]
  · split
    · simp [stepOutcomeOk, outNotFound, validExit, ExitCode.Failure]
    · split
      · simp [stepOutcomeOk, outUsage, validExit, ExitCode.Failure]
      · split <;>
          simp [stepOutcomeOk, outThrown, outOk, validExit, ExitCode.Failure]

/-- The check command body has the shared outcome shape. -/
theorem checkStep_ok (w : World) (ln itn : String) (c : AnyListClient) :
    stepOutcomeOk (checkStep w ln itn c) := by
  unfold checkStep
  split
  · simp [stepOutcomeOk, outThrown, validExit, ExitCode.Failure]
  · split
    · simp [stepOutcomeOk, outNotFound, validExit, ExitCode.Failure]
    · split
      · simp [stepOutcomeOk, outNotFound, validExit, ExitCode.Failure]
      · split <;>
          simp [stepOutcomeOk, outThrown, outOk, validExit, ExitCode.Failure]

/-- The uncheck command body has the shared outcome shape. -/
theorem uncheckStep_ok (w : World) (ln itn : String) (c : AnyListClient) :
    stepOutcomeOk (uncheckStep w ln itn c) := by
  unfold uncheckStep
  split
  · simp [stepOutcomeOk, outThrown, validExit, ExitCode.Failure]
  · split
    · simp [stepOutcomeOk, outNotFound, validExit, ExitCode.Failure]
    · split
      · simp [stepOutcomeOk, outNotFound, validExit, ExitCode.Failure]
      · split <;>
          simp [stepOutcomeOk, outThrown, outOk, validExit, ExitCode.Failure]

/-- The remove command body has the shared outcome shape. -/
theorem removeStep_ok (w : World) (ln itn : String) (c : AnyListClient) :
    stepOutcomeOk (removeStep w ln itn c) := by
  unfold removeStep
  split
  · simp [stepOutcomeOk, outThrown, validExit, ExitCode.Failure]
  · split
    · simp [stepOutcomeOk, outNotFound, validExit, ExitCode.Failure]
    · split
      · simp [stepOutcomeOk, outNotFound, validExit, ExitCode.Failure]
      · split <;>
          simp [stepOutcomeOk, outThrown, outOk, validExit, ExitCode.Failure]

/-- The clear command body has the shared outcome shape. -/
theorem clearStep_ok (w : World) (ln : String) (c : AnyListClient) :
    stepOutcomeOk (clearStep w ln c) := by
  unfold clearStep
  split
  · simp [stepOutcomeOk, outThrown, validExit, ExitCode.Failure]
  · split
    · simp [stepOutcomeOk, outNotFound, validExit, ExitCode.Failure]
    · split <;>
        simp [stepOutcomeOk, outThrown, outOk, validExit, ExitCode.Failure]

/-- C4: every invocation of the CLI exits with one of the four documented
codes, and the Commander exitOverride keeps the codes in range given that
Commander itself only uses exit codes 0 and 1. -/
theorem exit_codes_in_range :
    (∀ (w : World) (inv : Invocation), validExit (runCmd w inv).exitCode) ∧
    (∀ (errCode : String) (ec : Nat), ec = 0 ∨ ec = 1 →
      validExit (exitOverride errCode ec)) := by
  constructor
  · intro w inv
    cases inv with
    | auth tty e p =>
      simp only [runCmd]
      unfold authCmdRun
      cases tty <;>
        cases he : (e == "" || p == "") <;>
        cases hl : w.loginOk <;>
        cases hfe : w.fetchErr <;>
        simp [he, hl, hfe, validExit]
    | logout => simp [runCmd, outPlain, validExit]
    | whoami => simp [runCmd, outPlain, validExit]
    | categories => simp [runCmd, outPlain, validExit]
    | lists => exact authOutcome_exit w _ (fun c => listsStep_ok w c)
    | items ln => exact authOutcome_exit w _ (fun c => itemsStep_ok w ln c)
    | add ln itn q cat =>
      exact authOutcome_exit w _ (fun c => addStep_ok w ln itn q cat c)
    | check ln itn =>
      exact authOutcome_exit w _ (fun c => checkStep_ok w ln itn c)
    | uncheck ln itn =>
      exact authOutcome_exit w _ (fun c => uncheckStep_ok w ln itn c)
    | remove ln itn =>
      exact authOutcome_exit w _ (fun c => removeStep_ok w ln itn c)
    | clear ln => exact authOutcome_exit w _ (fun c => clearStep_ok w ln c)
  · intro errCode ec h
    unfold exitOverride
    split
    · simp [validExit, ExitCode.InvalidUsage]
    · rcases h with h | h <;> simp [validExit, h]

/-- Demo world used by the concrete witnesses: environment credentials, a
working login and no injected errors. -/
def demoWorld : World :=
  ⟨demoEnv, "/home/u", emptyFS, true, demoClient, false, false⟩

/-- Demo world in which every awaited save or removal throws. -/
def demoWorldErr : World := { demoWorld with saveErr := true }

/-- Witness for C4: a concrete successful invocation and a concrete
Commander error both land in the documented code set. -/
theorem exit_codes_in_range_witness :
    validExit (runCmd demoWorld Invocation.lists).exitCode ∧
    validExit (exitOverride "commander.unknownCommand" 1) :=
  ⟨exit_codes_in_range.1 demoWorld Invocation.lists,
   exit_codes_in_range.2 "commander.unknownCommand" 1 (Or.inr rfl)⟩

/-- A successful assoc-list lookup returns one of the stored values. -/
theorem lookup_mem_snd {α β : Type} [BEq α] :
    ∀ (l : List (α × β)) (a : α) (b : β),
      l.lookup a = some b → b ∈ l.map Prod.snd := by
  intro l
  induction l with
  | nil => intro a b h; cases h
  | cons p rest ih =>
    intro a b h
    obtain ⟨k, v⟩ := p
    by_cases hk : a == k
    · simp only [List.lookup, hk] at h
      simp [← Option.some.inj h]
    · simp only [List.lookup, hk] at h
      simp [ih a b h]

/-- Every category id stored in the table is a non-empty string. -/
theorem lookup_categories_ne_empty (k v : String)
    (h : ANYLIST_CATEGORIES.lookup k = some v) : v ≠ "" := by
  have hm := lookup_mem_snd ANYLIST_CATEGORIES k v h
  intro hv
  rw [hv] at hm
  revert hm
  decide

/-- Counterexample for C2: the value constructor lowercases to itself, is
not a key of ANYLIST_CATEGORIES, yet the bracket access finds the inherited
Object.prototype member, a truthy value, so the add command does not exit
with InvalidUsage: it completes with exit code 0, refuting the claim that
every non-key category value exits with code 2. -/
theorem category_prototype_counterexample :
    ANYLIST_CATEGORIES.lookup (toLowerCase "constructor") = none ∧
    objectPrototypeProps.contains (toLowerCase "constructor") = true ∧
    (runCmd demoWorld
      (.add "Groceries" "Bread" none (some "constructor"))).exitCode =
      ExitCode.Success ∧
    (runCmd demoWorld
      (.add "Groceries" "Bread" none (some "constructor"))).exitCode ≠
      ExitCode.InvalidUsage := by
  decide

/-- C2 as amended: an add invocation whose category value lowercases neither
to a key of ANYLIST_CATEGORIES nor to the name of a property inherited from
Object.prototype exits with InvalidUsage leaving the lists untouched (an
inherited name such as constructor is truthy at runtime and bypasses the
exit), and every value whose lowercasing is a key resolves to the mapped
category id. -/
theorem add_unknown_category_invalid_usage :
    (∀ (w : World) (listName itemName : String) (quantity : Option String)
      (s : String) (c : AnyListClient) (l : AnyListList),
      getAuthenticatedClient w = .ok c → w.fetchErr = false →
      getListByName c listName = some l →
      ANYLIST_CATEGORIES.lookup (toLowerCase s) = none →
      objectPrototypeProps.contains (toLowerCase s) = false → s ≠ "" →
      (runCmd w (.add listName itemName quantity (some s))).exitCode =
          ExitCode.InvalidUsage ∧
        (runCmd w (.add listName itemName quantity (some s))).finalLists =
          c.lists ∧
        (runCmd w (.add listName itemName quantity (some s))).tornDown =
          true) ∧
    (∀ (s cid : String),
      ANYLIST_CATEGORIES.lookup (toLowerCase s) = some cid →
      resolveCategory (some s) = .ok (some (.ownVal cid))) := by
  constructor
  · intro w listName itemName quantity s c l hauth hf hl hcat hproto hs
    have hacc : categoryAccess (toLowerCase s) = .undefinedVal := by
      have hproto2 : toLowerCase s ∉ objectPrototypeProps := by
        simpa using hproto
      unfold categoryAccess
      simp [hcat, hproto2]
    have hr : resolveCategory (some s) = .error ExitCode.InvalidUsage := by
      unfold resolveCategory
      simp [strTruthy, hs, hacc, categoryTruthy]
    have h1 := authOutcome_of_ok w
      (addStep w listName itemName quantity (some s)) c hauth
    simp only [runCmd, h1]
    unfold addStep
    rw [hf, hl, hr]
    simp [outUsage, ExitCode.InvalidUsage]
  · intro s cid h
    have h0 : ANYLIST_CATEGORIES.lookup (toLowerCase "") = none := by decide
    by_cases hs : s = ""
    · rw [hs, h0] at h
      cases h
    · have hne : cid ≠ "" := lookup_categories_ne_empty _ _ h
      have hacc : categoryAccess (toLowerCase s) = .ownVal cid := by
        unfold categoryAccess
        simp [h]
      unfold resolveCategory
      simp [strTruthy, hs, hacc, categoryTruthy, hne]

/-- Witness for the amended C2: the category gadgets is rejected with exit
code 2 on the demo world, and DAIRY in upper case resolves to the dairy
id. -/
theorem add_unknown_category_invalid_usage_witness :
    (runCmd demoWorld (.add "Groceries" "Bread" none (some "gadgets"))).exitCode
        = ExitCode.InvalidUsage ∧
      resolveCategory (some "DAIRY") = .ok (some (.ownVal "dairy")) :=
  ⟨(add_unknown_category_invalid_usage.1 demoWorld "Groceries" "Bread"
      none "gadgets" demoClient demoList rfl rfl (by decide)
      (by decide) (by decide) (by decide)).1,
   add_unknown_category_invalid_usage.2 "DAIRY" "dairy" (by decide)⟩

/-- C3: naming a missing list in items, add, check, uncheck, remove or
clear exits with Failure; naming a missing item in check, uncheck or remove
exits with Failure; and the per-item helpers signal the missing item by
returning none (checkItem, uncheckItem) or false (removeItem). -/
theorem missing_names_exit_failure (w : World) (listName itemName : String)
    (quantity category : Option String) (c : AnyListClient)
    (hauth : getAuthenticatedClient w = .ok c) (hf : w.fetchErr = false) :
    (getListByName c listName = none →
      (runCmd w (.items listName)).exitCode = ExitCode.Failure ∧
      (runCmd w (.add listName itemName quantity category)).exitCode =
        ExitCode.Failure ∧
      (runCmd w (.check listName itemName)).exitCode = ExitCode.Failure ∧
      (runCmd w (.uncheck listName itemName)).exitCode = ExitCode.Failure ∧
      (runCmd w (.remove listName itemName)).exitCode = ExitCode.Failure ∧
      (runCmd w (.clear listName)).exitCode = ExitCode.Failure) ∧
    (∀ l, getListByName c listName = some l →
      findItemByName l itemName = none →
      (runCmd w (.check listName itemName)).exitCode = ExitCode.Failure ∧
      (runCmd w (.uncheck listName itemName)).exitCode = ExitCode.Failure ∧
      (runCmd w (.remove listName itemName)).exitCode = ExitCode.Failure) ∧
    (∀ (l : AnyListList) (n : String), findItemByName l n = none →
      checkItem l n = none ∧ uncheckItem l n = none ∧
      (removeItem l n).1 = false) := by
  refine ⟨?_, ?_, ?_⟩
  · intro hn
    refine ⟨?_, ?_, ?_, ?_, ?_, ?_⟩ <;>
      simp only [runCmd, authOutcome_of_ok w _ c hauth] <;>
      simp [itemsStep, addStep, checkStep, uncheckStep, removeStep,
        clearStep, hf, hn, outNotFound, ExitCode.Failure]
  · intro l hl hi
    refine ⟨?_, ?_, ?_⟩ <;>
      simp only [runCmd, authOutcome_of_ok w _ c hauth] <;>
      simp [checkStep, uncheckStep, removeStep, hf, hl, hi, outNotFound,
        ExitCode.Failure]
  · intro l n hn
    refine ⟨?_, ?_, ?_⟩ <;> simp [checkItem, uncheckItem, removeItem, hn]

/-- Witness for C3: on the demo world a missing list name and a missing
item name exit with code 1 and the helpers return none and false. -/
theorem missing_names_exit_failure_witness :
    (runCmd demoWorld (.items "Nope")).exitCode = ExitCode.Failure ∧
    (runCmd demoWorld (.check "Groceries" "Caviar")).exitCode =
      ExitCode.Failure ∧
    checkItem demoList "Caviar" = none ∧
    (removeItem demoList "Caviar").1 = false := by
  have h := missing_names_exit_failure demoWorld "Nope" "x" none none
    demoClient rfl rfl
  have h2 := missing_names_exit_failure demoWorld "Groceries" "Caviar"
    none none demoClient rfl rfl
  refine ⟨(h.1 (by decide)).1, ?_, ?_, ?_⟩
  · exact (h2.2.1 demoList (by decide) (by decide)).1
  · exact ((h2.2.2) demoList "Caviar" (by decide)).1
  · exact ((h2.2.2) demoList "Caviar" (by decide)).2.2

/-- Counterexample for C8: on a world where the awaited save throws, the
check command ends the process with exit code 1 through the dispatch-boundary
catch without tearing the connection down, contradicting the claim that
every process-ending path tears down first. -/
theorem teardown_missing_on_error_counterexample :
    (runCmd demoWorldErr (.check "Groceries" "Milk")).errored = true ∧
    (runCmd demoWorldErr (.check "Groceries" "Milk")).exitCode =
      ExitCode.Failure ∧
    (runCmd demoWorldErr (.check "Groceries" "Milk")).tornDown = false := by
  decide

/-- C8 as amended: for every authenticated command, every successful or
not-found path tears the connection down before the process exits, while a
thrown error caught at the dispatch boundary exits with Failure without
tearing down. -/
theorem teardown_discipline (w : World) (inv : Invocation)
    (c : AnyListClient) (hauth : getAuthenticatedClient w = .ok c)
    (hcmd : authCommand inv = true) :
    ((runCmd w inv).errored = false → (runCmd w inv).tornDown = true) ∧
    ((runCmd w inv).errored = true →
      (runCmd w inv).tornDown = false ∧
      (runCmd w inv).exitCode = ExitCode.Failure) := by
  cases inv with
  | auth tty e p => simp [authCommand] at hcmd
  | logout => simp [authCommand] at hcmd
  | whoami => simp [authCommand] at hcmd
  | categories => simp [authCommand] at hcmd
  | lists =>
    simp only [runCmd, authOutcome_of_ok w _ c hauth]
    exact ⟨(listsStep_ok w c).2.1, (listsStep_ok w c).2.2⟩
  | items ln =>
    simp only [runCmd, authOutcome_of_ok w _ c hauth]
    exact ⟨(itemsStep_ok w ln c).2.1, (itemsStep_ok w ln c).2.2⟩
  | add ln itn q cat =>
    simp only [runCmd, authOutcome_of_ok w _ c hauth]
    exact ⟨(addStep_ok w ln itn q cat c).2.1, (addStep_ok w ln itn q cat c).2.2⟩
  | check ln itn =>
    simp only [runCmd, authOutcome_of_ok w _ c hauth]
    exact ⟨(checkStep_ok w ln itn c).2.1, (checkStep_ok w ln itn c).2.2⟩
  | uncheck ln itn =>
    simp only [runCmd, authOutcome_of_ok w _ c hauth]
    exact ⟨(uncheckStep_ok w ln itn c).2.1, (uncheckStep_ok w ln itn c).2.2⟩
  | remove ln itn =>
    simp only [runCmd, authOutcome_of_ok w _ c hauth]
    exact ⟨(removeStep_ok w ln itn c).2.1, (removeStep_ok w ln itn c).2.2⟩
  | clear ln =>
    simp only [runCmd, authOutcome_of_ok w _ c hauth]
    exact ⟨(clearStep_ok w ln c).2.1, (clearStep_ok w ln c).2.2⟩

/-- Witness for the amended C8: a concrete successful lists invocation
tears the connection down. -/
theorem teardown_discipline_witness :
    (runCmd demoWorld Invocation.lists).tornDown = true :=
  (teardown_discipline demoWorld Invocation.lists demoClient rfl
    rfl).1 (by decide)

end AnylistCli
